import Mathlib

/-!
Verification development for the claudewatch/promptwatch log-analytics core.

The Go sources embedded here are:
* `internal/monitor/session_parser.go` — `ParseSessionFile`, `GetSessionMetadata`
  and their data model;
* `internal/ui/update.go` — cost/ratio helpers, the message-table refresh and
  the key handlers of the view state machine;
* `internal/ui/model.go` — the session-list sort of `loadSessionsFromProject`
  and the session-detail load.

Modelling conventions:
* Go `time.Time` values are integers (nanoseconds), with the zero `time.Time`
  modelled as `0`; `IsZero` is `= 0`, `Before`/`After` are `<`/`>` and
  `t2.Sub(t1)` is `t2 - t1` (a duration in nanoseconds).
* JSON decoding outcomes are made explicit: a scanned line is
  `Option SessionEntry` (`none` = `json.Unmarshal` into `SessionEntry` fails,
  which the code skips), and the extra strict re-unmarshals the code performs
  on the same bytes are carried as `Option` fields of `SessionEntry`.
* File I/O is a `FileRead` value: open failure, or the scanned lines together
  with whether `scanner.Err()` reported a read error afterwards.
* Go `float64` arithmetic on the cost/ratio values is modelled over `ℚ`
  (the claims under test are about the formulas, not rounding of binary
  floating point).
* Go `int` counters that only ever increment are `Nat`; token counts and
  times decoded from JSON are `Int`.
* Purely presentational state (bubbletea tables, viewports, rendered strings
  of cards) is outside the embedding; every field the claims mention is kept.
-/

namespace Monitor

/-- Outcome of parsing the `timestamp` string of an entry.
`ParseSessionFile` tries `time.RFC3339Nano` and then falls back to
`time.RFC3339`; `GetSessionMetadata` accepts only the `RFC3339Nano` parse and
skips the entry otherwise. A failed parse leaves the Go `time.Time` at its
zero value (here `0`). -/
inductive TSParse where
  | empty
  | bad
  | nano (t : Int)
  | rfcOnly (t : Int)
deriving DecidableEq, Repr

/-- The `time.Time` value the entry ends up with in `ParseSessionFile`
(zero when the string is empty or unparsable). -/
def TSParse.value : TSParse → Int
  | .empty => 0
  | .bad => 0
  | .nano t => t
  | .rfcOnly t => t

/-- One item of an array-form `message.content`, as inspected by
`ParseSessionFile`. `type_ = none` covers items that are not JSON objects or
whose `type` field is not a string (the code skips those). `text`, `name` and
`content` are present only when the corresponding field exists and is a
string; `input` is the `json.Marshal` serialisation of the `input` field when
it exists and is an object. -/
structure BlockItem where
  type_ : Option String
  text : Option String
  name : Option String
  input : Option String
  content : Option String
deriving DecidableEq, Repr

/-- The `message.content` field (`interface{}` in Go): a JSON string, a JSON
array of items, JSON `null`/absent (`nullv`, the Go `nil` interface), or any
other JSON value. -/
inductive MsgContent where
  | str (s : String)
  | arr (items : List BlockItem)
  | nullv
  | other
deriving DecidableEq, Repr

/-- The decoded `message` object of a `SessionEntry`. -/
structure GoMsg where
  role : String
  content : MsgContent
deriving DecidableEq, Repr

/-- Result of the strict re-unmarshal into `detailedEntry` performed by
`ParseSessionFile` for assistant entries (model name plus usage counters);
`none` when that unmarshal fails. -/
structure Detailed where
  model : String
  inputTokens : Int
  cacheCreationInputTokens : Int
  cacheReadInputTokens : Int
  outputTokens : Int
deriving DecidableEq, Repr

/-- Result of the usage-only re-unmarshal performed by `GetSessionMetadata`
for assistant entries; `none` when that unmarshal fails. -/
structure MetaUsage where
  inputTokens : Int
  cacheCreationInputTokens : Int
  outputTokens : Int
deriving DecidableEq, Repr

/-- A decoded JSONL line: the `SessionEntry` struct fields plus the other
views the code takes of the same raw bytes (`rawData` map lookups, the
detailed re-unmarshals). `uuid`/`cwd`/`sessionId`/`userType`/`parentUuid` are
`rawData[...]` when present as strings. -/
structure SessionEntry where
  type_ : String
  timestamp : TSParse
  version : String
  gitBranch : String
  isSidechain : Bool
  message : Option GoMsg
  uuid : Option String
  cwd : Option String
  sessionId : Option String
  userType : Option String
  parentUuid : Option String
  detailed : Option Detailed
  metaUsage : Option MetaUsage
deriving DecidableEq, Repr

/-- `monitor.Message` (session_parser.go:53-74). -/
structure Message where
  role : String
  content : String
  timestamp : Int
  type_ : String
  toolName : String
  toolInput : String
  model : String
  inputTokens : Int
  outputTokens : Int
  cacheCreation : Int
  cacheRead : Int
  uuid : String
  workingDir : String
  sessionID : String
  version : String
  gitBranch : String
  userType : String
  parentUUID : String
  isSidechain : Bool
deriving DecidableEq, Repr

/-- `monitor.SessionStats` (session_parser.go:77-93). `FilePath` is carried
through unchanged by the code and is omitted. -/
structure SessionStats where
  createdAt : Int := 0
  lastActivity : Int := 0
  duration : Int := 0
  totalMessages : Nat := 0
  userMessages : Nat := 0
  assistantMessages : Nat := 0
  progressEvents : Nat := 0
  systemEvents : Nat := 0
  fileSnapshots : Nat := 0
  queueOperations : Nat := 0
  compactCount : Nat := 0
  errorCount : Nat := 0
  messageHistory : List Message := []
  claudeVersion : String := ""
deriving DecidableEq, Repr

/-- State of the content-extraction loop over an assistant entry's content
array (the local variables `contentStr`, `msgType`, `toolName`, `toolInput`
of `ParseSessionFile`). -/
structure ExtractState where
  contentStr : String := ""
  msgType : String := ""
  toolName : String := ""
  toolInput : String := ""
deriving DecidableEq, Repr

/-- One iteration of the `for _, item := range contentArr` loop for an
assistant entry (session_parser.go:213-248). Note that the `break` in the
Go `case "text"` arm only exits the `switch`, not the loop, so a later text
item overwrites `contentStr`; the `continue` of `case "thinking"` and the
switch default both just move to the next item. -/
def assistantItemStep (st : ExtractState) (item : BlockItem) : ExtractState :=
  match item.type_ with
  | some "text" =>
    match item.text with
    | some t => { st with contentStr := t, msgType := "assistant_response" }
    | none => st
  | some "tool_use" =>
    match item.name with
    | some n =>
      let ti := match item.input with
        | some s => s
        | none => st.toolInput
      let c := if st.contentStr = "" then "Called tool: " ++ n else st.contentStr
      { st with contentStr := c, msgType := "assistant_response",
                toolName := n, toolInput := ti }
    | none => st
  | _ => st

/-- The `for` loop over a user entry's content array
(session_parser.go:200-210): the first item whose `type` is `tool_result`
and whose `content` is a string wins (that `break` does exit the loop). -/
def userToolResult : List BlockItem → Option String
  | [] => none
  | item :: rest =>
    if item.type_ = some "tool_result" then
      match item.content with
      | some c => some c
      | none => userToolResult rest
    else userToolResult rest

/-- Content extraction for a user/assistant entry
(session_parser.go:163-250), producing the local variables used to build the
`Message`. -/
def extractContent (role : String) (content : MsgContent) : ExtractState :=
  match content with
  | .str s => { contentStr := s, msgType := "prompt" }
  | .arr items =>
    if role = "user" then
      match userToolResult items with
      | some c => { contentStr := c, msgType := "tool_result" }
      | none => {}
    else if role = "assistant" then
      items.foldl assistantItemStep {}
    else {}
  | .nullv => {}
  | .other => {}

/-- The `case "user", "assistant"` branch of `ParseSessionFile`
(session_parser.go:153-307): bump counters, extract content, and append a
`Message` unless the content resolved to the empty string. -/
def processMessageEntry (stats : SessionStats) (entry : SessionEntry) (ts : Int) :
    SessionStats :=
  match entry.message with
  | none => stats
  | some msg =>
    if msg.role = "" then stats
    else
      let stats := { stats with totalMessages := stats.totalMessages + 1 }
      let stats :=
        if msg.role = "user" then
          { stats with userMessages := stats.userMessages + 1 }
        else if msg.role = "assistant" then
          { stats with assistantMessages := stats.assistantMessages + 1 }
        else stats
      let detail :=
        if msg.role = "assistant" then
          match entry.detailed with
          | some d => (d.model, d.inputTokens, d.outputTokens,
                       d.cacheCreationInputTokens, d.cacheReadInputTokens)
          | none => ("", 0, 0, 0, 0)
        else ("", 0, 0, 0, 0)
      let ex := extractContent msg.role msg.content
      if ex.contentStr = "" then stats
      else
        let msgType :=
          if ex.msgType = "" then
            if msg.role = "user" then "prompt" else "assistant_response"
          else ex.msgType
        let m : Message :=
          { role := msg.role, content := ex.contentStr, timestamp := ts,
            type_ := msgType, toolName := ex.toolName, toolInput := ex.toolInput,
            model := detail.1, inputTokens := detail.2.1,
            outputTokens := detail.2.2.1, cacheCreation := detail.2.2.2.1,
            cacheRead := detail.2.2.2.2,
            uuid := entry.uuid.getD "", workingDir := entry.cwd.getD "",
            sessionID := entry.sessionId.getD "", version := entry.version,
            gitBranch := entry.gitBranch, userType := entry.userType.getD "",
            parentUUID := entry.parentUuid.getD "",
            isSidechain := entry.isSidechain }
        { stats with messageHistory := stats.messageHistory ++ [m] }

/-- The version capture of `ParseSessionFile` (session_parser.go:136-141):
record the first non-empty `version` field seen. -/
def captureVersion (stats : SessionStats) (v : String) : SessionStats :=
  if stats.claudeVersion = "" ∧ v ≠ "" then { stats with claudeVersion := v }
  else stats

/-- The running min/max time update of `ParseSessionFile`
(session_parser.go:143-149). -/
def updateTimes (stats : SessionStats) (ts : Int) : SessionStats :=
  let stats :=
    if stats.createdAt = 0 ∨ ts < stats.createdAt then
      { stats with createdAt := ts }
    else stats
  if ts > stats.lastActivity then { stats with lastActivity := ts } else stats

/-- The `switch entry.Type` of `ParseSessionFile`
(session_parser.go:152-326). -/
def dispatchEntry (stats : SessionStats) (entry : SessionEntry) (ts : Int) :
    SessionStats :=
  if entry.type_ = "user" ∨ entry.type_ = "assistant" then
    processMessageEntry stats entry ts
  else if entry.type_ = "progress" then
    { stats with progressEvents := stats.progressEvents + 1 }
  else if entry.type_ = "system" then
    { stats with systemEvents := stats.systemEvents + 1 }
  else if entry.type_ = "file-history-snapshot" then
    { stats with fileSnapshots := stats.fileSnapshots + 1 }
  else if entry.type_ = "queue-operation" then
    { stats with queueOperations := stats.queueOperations + 1 }
  else if entry.type_ = "compact" then
    { stats with compactCount := stats.compactCount + 1 }
  else if entry.type_ = "error" then
    { stats with errorCount := stats.errorCount + 1 }
  else stats

/-- One iteration of the scan loop of `ParseSessionFile`
(session_parser.go:114-327): skip undecodable lines, capture the first
non-empty version, update the min/max times, then dispatch on the entry
type. -/
def processEntry (stats : SessionStats) (line : Option SessionEntry) :
    SessionStats :=
  match line with
  | none => stats
  | some entry =>
    dispatchEntry (updateTimes (captureVersion stats entry.version)
      entry.timestamp.value) entry entry.timestamp.value

/-- The result of opening and scanning a session file: the open can fail,
and otherwise the scanner yields a list of lines (each either decoded or
undecodable) after which `scanner.Err()` may report a read error (e.g. a
line over the 10 MB limit). -/
inductive FileRead where
  | openErr
  | lines (ls : List (Option SessionEntry)) (readErr : Bool)
deriving DecidableEq, Repr

/-- The duration computation at the end of `ParseSessionFile`
(session_parser.go:334-336). -/
def finishStats (stats : SessionStats) : SessionStats :=
  if stats.createdAt ≠ 0 ∧ stats.lastActivity ≠ 0 then
    { stats with duration := stats.lastActivity - stats.createdAt }
  else stats

/-- `monitor.ParseSessionFile` (session_parser.go:96-339). -/
def parseSessionFile : FileRead → Except String SessionStats
  | .openErr => .error "failed to open session file"
  | .lines ls readErr =>
    if readErr then .error "error reading session file"
    else .ok (finishStats (ls.foldl processEntry {}))

/-- `monitor.SessionMetadata` (session_parser.go:425-438). -/
structure SessionMetadata where
  started : Int
  ended : Int
  duration : Int
  messageCount : Nat
  userPrompts : Nat
  interruptions : Nat
  totalInputTokens : Int
  totalOutputTokens : Int
  version : String
  firstPrompt : String
  gitBranch : String
  isSidechain : Bool
deriving DecidableEq, Repr

/-- The local variables of `GetSessionMetadata`'s scan loop. -/
structure MetaState where
  firstTime : Int := 0
  lastTime : Int := 0
  messageCount : Nat := 0
  userPrompts : Nat := 0
  lastMessageTime : Int := 0
  interruptions : Nat := 0
  totalInputTokens : Int := 0
  totalOutputTokens : Int := 0
  version : String := ""
  firstPrompt : String := ""
  gitBranch : String := ""
  isSidechain : Bool := false
deriving DecidableEq, Repr

/-- `const interruptionGap = 1 * time.Hour` in nanoseconds
(session_parser.go:483). -/
def interruptionGap : Int := 3600 * 1000000000

/-- One iteration of the scan loop of `GetSessionMetadata`
(session_parser.go:485-555): only entries whose timestamp parses with
`RFC3339Nano` are considered; an interruption is counted when the gap from
the previous user/assistant entry strictly exceeds one hour. -/
def metaStep (st : MetaState) (line : Option SessionEntry) : MetaState :=
  match line with
  | none => st
  | some entry =>
    match entry.timestamp with
    | .nano ts =>
      let st :=
        if st.firstTime = 0 then
          { st with firstTime := ts, version := entry.version,
                    gitBranch := entry.gitBranch,
                    isSidechain := entry.isSidechain }
        else st
      let st := { st with lastTime := ts }
      if entry.type_ = "user" ∨ entry.type_ = "assistant" then
        let st := { st with messageCount := st.messageCount + 1 }
        let st :=
          if entry.type_ = "user" then
            let st := { st with userPrompts := st.userPrompts + 1 }
            if st.firstPrompt = "" then
              match entry.message with
              | some msg =>
                match msg.content with
                | .str c => { st with firstPrompt := c }
                | _ => st
              | none => st
            else st
          else st
        let st :=
          if entry.type_ = "assistant" then
            match entry.message with
            | some msg =>
              if msg.content ≠ .nullv then
                match entry.metaUsage with
                | some u =>
                  { st with
                    totalInputTokens := st.totalInputTokens + u.inputTokens +
                      u.cacheCreationInputTokens,
                    totalOutputTokens := st.totalOutputTokens + u.outputTokens }
                | none => st
              else st
            | none => st
          else st
        let st :=
          if st.lastMessageTime ≠ (0 : Int) ∧ ts - st.lastMessageTime > interruptionGap then
            { st with interruptions := st.interruptions + 1 }
          else st
        { st with lastMessageTime := ts }
      else st
    | _ => st

/-- `monitor.GetSessionMetadata` (session_parser.go:463-579). -/
def getSessionMetadata : FileRead → Except String SessionMetadata
  | .openErr => .error "cannot open session file"
  | .lines ls readErr =>
    let st := ls.foldl metaStep {}
    if readErr then .error "error reading session file"
    else if st.firstTime = 0 then .error "no valid timestamps found in session"
    else .ok
      { started := st.firstTime, ended := st.lastTime,
        duration := st.lastTime - st.firstTime,
        messageCount := st.messageCount, userPrompts := st.userPrompts,
        interruptions := st.interruptions,
        totalInputTokens := st.totalInputTokens,
        totalOutputTokens := st.totalOutputTokens, version := st.version,
        firstPrompt := st.firstPrompt, gitBranch := st.gitBranch,
        isSidechain := st.isSidechain }

end Monitor

namespace UI

/-! ### Cost model (internal/ui/update.go:13-19, 631-673)

The Go constants are `float64`; the formulas are modelled exactly over `ℚ`.
Go's integer division (used for the output percentage) truncates toward
zero, which is `Int.tdiv`. -/

/-- `InputTokenCost = 3.0 / 1_000_000` -/
def InputTokenCost : ℚ := 3 / 1000000

/-- `CacheCreationTokenCost = 3.0 / 1_000_000` -/
def CacheCreationTokenCost : ℚ := 3 / 1000000

/-- `CacheReadTokenCost = 0.30 / 1_000_000` -/
def CacheReadTokenCost : ℚ := (3 / 10) / 1000000

/-- `OutputTokenCost = 15.0 / 1_000_000` -/
def OutputTokenCost : ℚ := 15 / 1000000

/-- `calculateMessageCost` (update.go:632-653). -/
def calculateMessageCost (msg : Monitor.Message) : ℚ × ℚ :=
  if msg.type_ ≠ "assistant_response" then (0, 0)
  else
    let inputCost := (msg.inputTokens : ℚ) * InputTokenCost
    let cacheCreationCost := (msg.cacheCreation : ℚ) * CacheCreationTokenCost
    let cacheReadCost := (msg.cacheRead : ℚ) * CacheReadTokenCost
    let outputCost := (msg.outputTokens : ℚ) * OutputTokenCost
    let cost := inputCost + cacheCreationCost + cacheReadCost + outputCost
    let savings :=
      if msg.cacheRead > 0 then
        (msg.cacheRead : ℚ) * InputTokenCost - cacheReadCost
      else 0
    (cost, savings)

/-- `calculateRatio` (update.go:656-673). `(outputTokens * 100) / total` is
Go `int` division, i.e. truncation toward zero. -/
def calculateRatio (inputTokens outputTokens : Int) : ℚ × Int :=
  let total := inputTokens + outputTokens
  if total = 0 then (0, 0)
  else if outputTokens = 0 then ((inputTokens : ℚ), 0)
  else if inputTokens = 0 then (0, 100)
  else ((inputTokens : ℚ) / (outputTokens : ℚ), Int.tdiv (outputTokens * 100) total)

/-! ### View state machine (internal/ui/model.go, update.go) -/

/-- `MessageFilter` (model.go:74-80). -/
inductive MessageFilter where
  | all
  | userOnly
  | assistantOnly
deriving DecidableEq, Repr

/-- `ViewMode` (model.go:54-63). -/
inductive ViewMode where
  | processes
  | projects
  | sessions
  | sessionDetail
  | messageDetail
deriving DecidableEq, Repr

/-- `MessageRow` (model.go:37-52). The purely presentational `Time` and
`RelativeTime` strings are omitted. -/
structure MessageRow where
  index : Nat
  role : String
  content : String
  model : String
  inputTokens : Int
  outputTokens : Int
  cacheCreation : Int
  cacheRead : Int
  cost : ℚ
  inputOutputRatio : ℚ
  outputPercentage : Int
  cacheSavings : ℚ
deriving DecidableEq, Repr

/-- `SessionInfo` (model.go:18-34), reduced to the fields the session list
logic reads. `updated` is the file modification time truncated to the
minute: the Go struct stores `info.ModTime().Format("2006-01-02 15:04")`
and the sort in `loadSessionsFromProject` re-parses that string with the
same layout for every comparison (model.go:427-428), so the comparison key
is exactly the minute-truncated modification time. -/
structure SessionInfo where
  id : String
  title : String
  path : String
  updated : Int
deriving DecidableEq, Repr

/-- The UI `Model` (model.go:83-134), reduced to the state the embedded
transitions read or write. Tables, viewports, terminal geometry, process
and project lists are presentational or out of the claims' scope.
`sessionStats` is the `interface{}` field holding `*monitor.SessionStats`
or `nil`. -/
structure UIModel where
  viewMode : ViewMode
  messageFilter : MessageFilter
  messageSortNewestFirst : Bool
  selectedMessageIdx : Int
  selectedSessionIdx : Int
  sessions : List SessionInfo
  sessionStats : Option Monitor.SessionStats
  messages : List MessageRow
  filteredMessageCount : Nat
  messageError : String
  lastMessageIdx : Int
deriving DecidableEq, Repr

/-- The filtering rule shared by `updateMessageTable` (update.go:530-543)
and `getFilteredMessages` (update.go:678-695). -/
def filterMessages (filt : MessageFilter) (history : List Monitor.Message) :
    List Monitor.Message :=
  history.filter fun msg =>
    match filt with
    | .userOnly => msg.type_ == "prompt"
    | .assistantOnly => msg.type_ == "assistant_response" || msg.type_ == "tool_result"
    | .all => true

/-- Conversion of one filtered message to a `MessageRow`
(update.go:560-597), minus the formatted time strings. -/
def buildRow (i : Nat) (msg : Monitor.Message) : MessageRow :=
  let cs := calculateMessageCost msg
  let rp := calculateRatio msg.inputTokens msg.outputTokens
  { index := i + 1, role := msg.role, content := msg.content,
    model := msg.model, inputTokens := msg.inputTokens,
    outputTokens := msg.outputTokens, cacheCreation := msg.cacheCreation,
    cacheRead := msg.cacheRead, cost := cs.1, inputOutputRatio := rp.1,
    outputPercentage := rp.2, cacheSavings := cs.2 }

/-- `updateMessageTable` (update.go:517-629): recompute the filtered (and
possibly reversed) message rows and their count. It does not touch
`selectedMessageIdx`. The in-place symmetric swap loop of update.go:546-550
is a list reversal. -/
def updateMessageTable (m : UIModel) : UIModel :=
  match m.sessionStats with
  | none => m
  | some stats =>
    let filtered := filterMessages m.messageFilter stats.messageHistory
    let filtered := if m.messageSortNewestFirst then filtered.reverse else filtered
    { m with filteredMessageCount := filtered.length,
             messages := filtered.mapIdx buildRow }

/-- The `case "u"` key handler (update.go:79-90): switch the filter to
user-only and rebuild the table. -/
def handleKeyU (m : UIModel) : UIModel :=
  if m.viewMode = .sessionDetail then
    let m := updateMessageTable { m with messageFilter := .userOnly }
    if m.filteredMessageCount = 0 then
      { m with messageError := "No user prompts found in this session" }
    else
      { m with messageError :=
          "Showing " ++ toString m.filteredMessageCount ++ " user prompts" }
  else m

/-- The `case "a"` key handler (update.go:91-102). -/
def handleKeyA (m : UIModel) : UIModel :=
  if m.viewMode = .sessionDetail then
    let m := updateMessageTable { m with messageFilter := .assistantOnly }
    if m.filteredMessageCount = 0 then
      { m with messageError := "No Claude responses found in this session" }
    else
      { m with messageError :=
          "Showing " ++ toString m.filteredMessageCount ++ " Claude responses" }
  else m

/-- The `case "b"` key handler (update.go:103-114). -/
def handleKeyB (m : UIModel) : UIModel :=
  if m.viewMode = .sessionDetail then
    let m := updateMessageTable { m with messageFilter := .all }
    if m.filteredMessageCount = 0 then
      { m with messageError := "No messages found in this session" }
    else
      { m with messageError :=
          "Showing all " ++ toString m.filteredMessageCount ++ " messages" }
  else m

/-- The `case "s"` key handler (update.go:115-126): toggle the sort order
and rebuild the table. -/
def handleKeyS (m : UIModel) : UIModel :=
  if m.viewMode = .sessionDetail then
    let m := updateMessageTable { m with messageSortNewestFirst := !m.messageSortNewestFirst }
    if m.messageSortNewestFirst then
      { m with messageError := "Sorting newest first" }
    else
      { m with messageError := "Sorting oldest first" }
  else m

/-- The guard and target of `loadSessionDetail` (model.go:327-344): `none`
when the selection is out of range, otherwise the path of the selected
session file (the dispatched command then runs `ParseSessionFile` on it). -/
def loadSessionDetailCmd (m : UIModel) : Option String :=
  if m.selectedSessionIdx < 0 ∨ (m.sessions.length : Int) ≤ m.selectedSessionIdx then
    none
  else
    (m.sessions[m.selectedSessionIdx.toNat]?).map SessionInfo.path

/-- The `case "enter"` branch for `ViewSessions` (update.go:141-144):
when the selection is valid, switch to the detail view, reset the filter to
`FilterAll`, and dispatch `loadSessionDetail`. Nothing here touches
`messageSortNewestFirst` or `selectedMessageIdx`. -/
def handleEnterSessions (m : UIModel) : UIModel × Option String :=
  if m.viewMode = .sessions ∧ 0 < m.sessions.length ∧
      0 ≤ m.selectedSessionIdx ∧ m.selectedSessionIdx < (m.sessions.length : Int) then
    let m := { m with viewMode := .sessionDetail, messageFilter := .all }
    (m, loadSessionDetailCmd m)
  else (m, none)

/-- The `sessionDetailMsg` branch of `Update` (update.go:189-200): on
success install the stats, clear the error, reset the message selection and
scroll tracking to 0 and rebuild the table; on failure only record the
error. -/
def handleSessionDetailMsg (m : UIModel)
    (result : Except String Monitor.SessionStats) : UIModel :=
  match result with
  | .error e => { m with messageError := e }
  | .ok stats =>
    updateMessageTable
      { m with messageError := "", sessionStats := some stats,
               selectedMessageIdx := 0, lastMessageIdx := 0 }

/-- The whole SessionList → SessionDetail transition: the `enter` handler
followed — once the dispatched load completes — by the `sessionDetailMsg`
handler applied to `ParseSessionFile`'s result for the selected file.
`fs` maps a path to its read outcome. -/
def selectSession (fs : String → Monitor.FileRead) (m : UIModel) : UIModel :=
  match handleEnterSessions m with
  | (m1, none) => m1
  | (m1, some path) => handleSessionDetailMsg m1 (Monitor.parseSessionFile (fs path))

/-! ### Session list sort (model.go:423-433)

`loadSessionsFromProject` sorts with a double loop over the slice:

  for i := range sessions:
    for j := i+1; j < len(sessions); j++:
      if parse(sessions[j].Updated).After(parse(sessions[i].Updated)):
        swap(i, j)

`innerPass cur l` is one run of the inner loop: `cur` is the current
occupant of slot `i`, `l` the later slots; whenever a later element's key is
strictly greater it swaps into slot `i` (the old occupant taking its slot),
giving back the final occupant of slot `i` and the final later slots. The
outer loop then recurses on the later slots. -/

def innerPass (cur : SessionInfo) : List SessionInfo → SessionInfo × List SessionInfo
  | [] => (cur, [])
  | y :: ys =>
    if cur.updated < y.updated then
      ((innerPass y ys).1, cur :: (innerPass y ys).2)
    else
      ((innerPass cur ys).1, y :: (innerPass cur ys).2)

/-- The outer loop of the sort, indexed by the number of remaining
iterations (`len(sessions) - i`): the final occupant of slot `i` is
prepended and the loop recurses on the later slots. `innerPass` preserves
length, so with fuel `l.length` the `0, l` fallback is never reached. -/
def sortSessionsGo : Nat → List SessionInfo → List SessionInfo
  | _, [] => []
  | 0, l => l
  | n + 1, x :: xs => (innerPass x xs).1 :: sortSessionsGo n (innerPass x xs).2

/-- The sort of `loadSessionsFromProject` (model.go:423-433). -/
def sortSessions (l : List SessionInfo) : List SessionInfo :=
  sortSessionsGo l.length l

end UI

namespace Fixtures

open Monitor UI

/-! Concrete inputs used by witnesses and counterexamples. -/

/-- A `text` content block. -/
def textItem (s : String) : BlockItem :=
  { type_ := some "text", text := some s, name := none, input := none,
    content := none }

/-- A `tool_use` content block named `n`, with serialised input `inp`. -/
def toolUseItem (n inp : String) : BlockItem :=
  { type_ := some "tool_use", text := none, name := some n,
    input := some inp, content := none }

/-- An assistant entry with array content `items` at time `ts`. -/
def assistantEntry (ts : Int) (items : List BlockItem) : SessionEntry :=
  { type_ := "assistant", timestamp := .nano ts, version := "2.1.25",
    gitBranch := "main", isSidechain := false,
    message := some { role := "assistant", content := .arr items },
    uuid := none, cwd := none, sessionId := none, userType := none,
    parentUuid := none,
    detailed := some { model := "claude", inputTokens := 10,
                       cacheCreationInputTokens := 0,
                       cacheReadInputTokens := 0, outputTokens := 5 },
    metaUsage := some { inputTokens := 10, cacheCreationInputTokens := 0,
                        outputTokens := 5 } }

/-- A user entry carrying only a parseable timestamp (no message body). -/
def userStamp (t : Int) : SessionEntry :=
  { type_ := "user", timestamp := .nano t, version := "", gitBranch := "",
    isSidechain := false, message := none, uuid := none, cwd := none,
    sessionId := none, userType := none, parentUuid := none,
    detailed := none, metaUsage := none }

/-- A user entry with plain string content. -/
def userPromptEntry (t : Int) (s : String) : SessionEntry :=
  { userStamp t with message := some { role := "user", content := .str s } }

/-- A normalized user prompt message. -/
def promptMsg : Monitor.Message :=
  { role := "user", content := "hello", timestamp := 1, type_ := "prompt",
    toolName := "", toolInput := "", model := "", inputTokens := 0,
    outputTokens := 0, cacheCreation := 0, cacheRead := 0, uuid := "",
    workingDir := "", sessionID := "", version := "", gitBranch := "",
    userType := "", parentUUID := "", isSidechain := false }

/-- A normalized assistant response message (10 in / 5 out tokens). -/
def asstMsg : Monitor.Message :=
  { promptMsg with
    role := "assistant", content := "hi", timestamp := 2,
    type_ := "assistant_response", model := "claude", inputTokens := 10,
    outputTokens := 5 }

/-- Session stats holding one prompt and one assistant response. -/
def statsTwo : SessionStats :=
  { createdAt := 1, lastActivity := 2, duration := 1, totalMessages := 2,
    userMessages := 1, assistantMessages := 1,
    messageHistory := [promptMsg, asstMsg], claudeVersion := "2.1.25" }

/-- A session-detail view of `statsTwo` with the cursor on the second
message (the state reached by opening the session and pressing `down`). -/
def mDetail : UIModel :=
  { viewMode := .sessionDetail, messageFilter := .all,
    messageSortNewestFirst := false, selectedMessageIdx := 1,
    selectedSessionIdx := 0, sessions := [], sessionStats := some statsTwo,
    messages := (filterMessages .all statsTwo.messageHistory).mapIdx buildRow,
    filteredMessageCount := 2, messageError := "", lastMessageIdx := 0 }

/-- One listed session. -/
def sessA : SessionInfo := { id := "a", title := "a", path := "pa", updated := 5 }

/-- A second session whose minute-truncated mtime ties with `sessA`. -/
def sessB : SessionInfo := { id := "b", title := "b", path := "pb", updated := 5 }

/-- A third, most recently modified session. -/
def sessC : SessionInfo := { id := "c", title := "c", path := "pc", updated := 7 }

/-- A session-list view with newest-first message sorting left on from a
previously viewed session. -/
def mSessions : UIModel :=
  { viewMode := .sessions, messageFilter := .userOnly,
    messageSortNewestFirst := true, selectedMessageIdx := 3,
    selectedSessionIdx := 0, sessions := [sessA], sessionStats := none,
    messages := [], filteredMessageCount := 0, messageError := "",
    lastMessageIdx := 0 }

/-- A one-line session file behind path "pa", empty behind anything else. -/
def fsA : String → FileRead := fun p =>
  if p = "pa" then .lines [some (userPromptEntry 1 "hello")] false
  else .lines [] false

/-- The property C1 asserts of the view state after a filter/sort change:
the message selection lies in `[0, count-1]`, or is 0 when the filtered
list is empty. -/
def selectionClamped (m : UIModel) : Prop :=
  if m.filteredMessageCount = 0 then m.selectedMessageIdx = 0
  else 0 ≤ m.selectedMessageIdx ∧
    m.selectedMessageIdx < (m.filteredMessageCount : Int)

instance (m : UIModel) : Decidable (selectionClamped m) := by
  unfold selectionClamped
  infer_instance

/-- The per-quadruple cost formula of `calculateMessageCost`
(update.go:638-643), factored out for the linearity statements. -/
def messageCostOf (i cw cr o : Int) : ℚ :=
  (i : ℚ) * InputTokenCost + (cw : ℚ) * CacheCreationTokenCost +
    (cr : ℚ) * CacheReadTokenCost + (o : ℚ) * OutputTokenCost

/-- Number of decoded lines of type `t` in a scanned file. -/
def countType (ls : List (Option SessionEntry)) (t : String) : Nat :=
  ls.countP fun l =>
    match l with
    | some en => en.type_ == t
    | none => false

/-- The stats `ParseSessionFile` produces for the file behind "pa". -/
def statsPA : SessionStats :=
  finishStats ([some (userPromptEntry 1 "hello")].foldl processEntry {})

/-- A two-line session file: a user prompt then an assistant text reply. -/
def lsW : List (Option SessionEntry) :=
  [some (userPromptEntry 5 "hello"), some (assistantEntry 7 [textItem "hi"])]

/-- The stats `ParseSessionFile` produces for `lsW`. -/
def statsW : SessionStats := finishStats (lsW.foldl processEntry {})

end Fixtures

/-! ## Helper lemmas -/

section Helpers

open Monitor UI Fixtures

theorem updateMessageTable_selectedMessageIdx (m : UIModel) :
    (updateMessageTable m).selectedMessageIdx = m.selectedMessageIdx := by
  cases h : m.sessionStats <;> simp [updateMessageTable, h]

theorem updateMessageTable_viewMode (m : UIModel) :
    (updateMessageTable m).viewMode = m.viewMode := by
  cases h : m.sessionStats <;> simp [updateMessageTable, h]

theorem updateMessageTable_messageFilter (m : UIModel) :
    (updateMessageTable m).messageFilter = m.messageFilter := by
  cases h : m.sessionStats <;> simp [updateMessageTable, h]

theorem updateMessageTable_sort (m : UIModel) :
    (updateMessageTable m).messageSortNewestFirst = m.messageSortNewestFirst := by
  cases h : m.sessionStats <;> simp [updateMessageTable, h]

theorem updateMessageTable_sessionStats (m : UIModel) :
    (updateMessageTable m).sessionStats = m.sessionStats := by
  cases h : m.sessionStats <;> simp [updateMessageTable, h]

theorem handleKeyU_selectedMessageIdx (m : UIModel) :
    (handleKeyU m).selectedMessageIdx = m.selectedMessageIdx := by
  unfold handleKeyU
  split
  · dsimp only
    split <;> simp [updateMessageTable_selectedMessageIdx]
  · rfl

theorem handleKeyA_selectedMessageIdx (m : UIModel) :
    (handleKeyA m).selectedMessageIdx = m.selectedMessageIdx := by
  unfold handleKeyA
  split
  · dsimp only
    split <;> simp [updateMessageTable_selectedMessageIdx]
  · rfl

theorem handleKeyB_selectedMessageIdx (m : UIModel) :
    (handleKeyB m).selectedMessageIdx = m.selectedMessageIdx := by
  unfold handleKeyB
  split
  · dsimp only
    split <;> simp [updateMessageTable_selectedMessageIdx]
  · rfl

theorem handleKeyS_selectedMessageIdx (m : UIModel) :
    (handleKeyS m).selectedMessageIdx = m.selectedMessageIdx := by
  unfold handleKeyS
  split
  · dsimp only
    split <;> simp [updateMessageTable_selectedMessageIdx]
  · rfl

theorem captureVersion_fields (s : SessionStats) (v : String) :
    (captureVersion s v).createdAt = s.createdAt ∧
    (captureVersion s v).lastActivity = s.lastActivity ∧
    (captureVersion s v).duration = s.duration ∧
    (captureVersion s v).messageHistory = s.messageHistory := by
  unfold captureVersion
  split <;> exact ⟨rfl, rfl, rfl, rfl⟩

theorem updateTimes_fields (s : SessionStats) (ts : Int) :
    (updateTimes s ts).duration = s.duration ∧
    (updateTimes s ts).messageHistory = s.messageHistory := by
  unfold updateTimes
  dsimp only
  split <;> split <;> exact ⟨rfl, rfl⟩

theorem updateTimes_inv (s : SessionStats) (ts : Int)
    (h1 : s.createdAt ≤ s.lastActivity) (h2 : 0 ≤ s.lastActivity) :
    (updateTimes s ts).createdAt ≤ (updateTimes s ts).lastActivity ∧
    0 ≤ (updateTimes s ts).lastActivity := by
  unfold updateTimes
  dsimp only
  split <;> split <;> simp_all <;> omega

theorem processMessageEntry_fields (s : SessionStats) (e : SessionEntry) (ts : Int) :
    (processMessageEntry s e ts).createdAt = s.createdAt ∧
    (processMessageEntry s e ts).lastActivity = s.lastActivity ∧
    (processMessageEntry s e ts).duration = s.duration := by
  unfold processMessageEntry
  repeat' split <;> try exact ⟨rfl, rfl, rfl⟩
  all_goals dsimp only
  all_goals split <;> exact ⟨rfl, rfl, rfl⟩

theorem processMessageEntry_historyLen (s : SessionStats) (e : SessionEntry) (ts : Int) :
    (processMessageEntry s e ts).messageHistory.length ≤
      s.messageHistory.length + 1 := by
  unfold processMessageEntry
  repeat' split
  all_goals try dsimp only
  all_goals repeat' split
  all_goals simp

theorem processMessageEntry_content (s : SessionStats) (e : SessionEntry) (ts : Int)
    (h : ∀ m ∈ s.messageHistory, m.content ≠ "") :
    ∀ m ∈ (processMessageEntry s e ts).messageHistory, m.content ≠ "" := by
  unfold processMessageEntry
  repeat' split <;> try exact h
  all_goals dsimp only
  all_goals split
  all_goals try exact h
  all_goals intro m hm
  all_goals rcases List.mem_append.mp hm with hmem | hmem
  all_goals try exact h m hmem
  all_goals rw [List.mem_singleton.mp hmem]
  all_goals dsimp only
  all_goals assumption

theorem dispatchEntry_fields (s : SessionStats) (e : SessionEntry) (ts : Int) :
    (dispatchEntry s e ts).createdAt = s.createdAt ∧
    (dispatchEntry s e ts).lastActivity = s.lastActivity ∧
    (dispatchEntry s e ts).duration = s.duration := by
  unfold dispatchEntry
  split
  · exact processMessageEntry_fields s e ts
  · repeat' split
    all_goals exact ⟨rfl, rfl, rfl⟩

theorem dispatchEntry_historyLen (s : SessionStats) (e : SessionEntry) (ts : Int) :
    (dispatchEntry s e ts).messageHistory.length ≤
      s.messageHistory.length +
        (if e.type_ = "user" ∨ e.type_ = "assistant" then 1 else 0) := by
  unfold dispatchEntry
  split
  · simpa using processMessageEntry_historyLen s e ts
  · repeat' split
    all_goals simp

theorem dispatchEntry_content (s : SessionStats) (e : SessionEntry) (ts : Int)
    (h : ∀ m ∈ s.messageHistory, m.content ≠ "") :
    ∀ m ∈ (dispatchEntry s e ts).messageHistory, m.content ≠ "" := by
  unfold dispatchEntry
  split
  · exact processMessageEntry_content s e ts h
  · repeat' split
    all_goals exact h

theorem processEntry_inv (s : SessionStats) (l : Option SessionEntry)
    (h1 : s.createdAt ≤ s.lastActivity) (h2 : 0 ≤ s.lastActivity) :
    (processEntry s l).createdAt ≤ (processEntry s l).lastActivity ∧
    0 ≤ (processEntry s l).lastActivity := by
  cases l with
  | none => exact ⟨h1, h2⟩
  | some e =>
    simp only [processEntry]
    have hc := captureVersion_fields s e.version
    have hu := updateTimes_inv (captureVersion s e.version) e.timestamp.value
      (by rw [hc.1, hc.2.1]; exact h1) (by rw [hc.2.1]; exact h2)
    have hd := dispatchEntry_fields
      (updateTimes (captureVersion s e.version) e.timestamp.value) e
      e.timestamp.value
    rw [hd.1, hd.2.1]
    exact hu

theorem processEntry_duration (s : SessionStats) (l : Option SessionEntry) :
    (processEntry s l).duration = s.duration := by
  cases l with
  | none => rfl
  | some e =>
    simp only [processEntry]
    rw [(dispatchEntry_fields _ _ _).2.2,
        (updateTimes_fields _ _).1,
        (captureVersion_fields _ _).2.2.1]

theorem processEntry_len (s : SessionStats) (l : Option SessionEntry) :
    (processEntry s l).messageHistory.length ≤
      s.messageHistory.length +
        ((if (match l with | some en => en.type_ == "user" | none => false)
            then 1 else 0) +
         (if (match l with | some en => en.type_ == "assistant" | none => false)
            then 1 else 0)) := by
  cases l with
  | none => simp [processEntry]
  | some e =>
    simp only [processEntry]
    have hdis := dispatchEntry_historyLen
      (updateTimes (captureVersion s e.version) e.timestamp.value) e
      e.timestamp.value
    rw [(updateTimes_fields _ _).2, (captureVersion_fields _ _).2.2.2] at hdis
    refine le_trans hdis ?_
    by_cases hu : e.type_ = "user" <;> by_cases ha : e.type_ = "assistant" <;>
      simp [hu, ha]

theorem processEntry_content (s : SessionStats) (l : Option SessionEntry)
    (h : ∀ m ∈ s.messageHistory, m.content ≠ "") :
    ∀ m ∈ (processEntry s l).messageHistory, m.content ≠ "" := by
  cases l with
  | none => exact h
  | some e =>
    simp only [processEntry]
    apply dispatchEntry_content
    rw [(updateTimes_fields _ _).2, (captureVersion_fields _ _).2.2.2]
    exact h

theorem foldl_processEntry_inv (ls : List (Option SessionEntry)) (s : SessionStats)
    (h1 : s.createdAt ≤ s.lastActivity) (h2 : 0 ≤ s.lastActivity) :
    (ls.foldl processEntry s).createdAt ≤ (ls.foldl processEntry s).lastActivity ∧
    0 ≤ (ls.foldl processEntry s).lastActivity := by
  induction ls generalizing s with
  | nil => exact ⟨h1, h2⟩
  | cons a tl ih =>
    have h := processEntry_inv s a h1 h2
    exact ih (processEntry s a) h.1 h.2

theorem foldl_processEntry_duration (ls : List (Option SessionEntry))
    (s : SessionStats) :
    (ls.foldl processEntry s).duration = s.duration := by
  induction ls generalizing s with
  | nil => rfl
  | cons a tl ih => rw [List.foldl_cons, ih, processEntry_duration]

theorem foldl_processEntry_len (ls : List (Option SessionEntry)) (s : SessionStats) :
    (ls.foldl processEntry s).messageHistory.length ≤
      s.messageHistory.length + countType ls "user" + countType ls "assistant" := by
  induction ls generalizing s with
  | nil => simp [countType]
  | cons a tl ih =>
    have hstep := processEntry_len s a
    have htl := ih (processEntry s a)
    simp only [List.foldl_cons]
    simp only [countType, List.countP_cons] at htl ⊢
    omega

theorem foldl_processEntry_content (ls : List (Option SessionEntry))
    (s : SessionStats) (h : ∀ m ∈ s.messageHistory, m.content ≠ "") :
    ∀ m ∈ (ls.foldl processEntry s).messageHistory, m.content ≠ "" := by
  induction ls generalizing s with
  | nil => exact h
  | cons a tl ih => exact ih (processEntry s a) (processEntry_content s a h)

theorem finishStats_messageHistory (s : SessionStats) :
    (finishStats s).messageHistory = s.messageHistory := by
  unfold finishStats
  split <;> rfl

theorem finishStats_duration_nonneg (s : SessionStats)
    (h1 : s.createdAt ≤ s.lastActivity) (hd : s.duration = 0) :
    0 ≤ (finishStats s).duration := by
  unfold finishStats
  split
  · dsimp only
    omega
  · omega

theorem innerPass_length (c : SessionInfo) (l : List SessionInfo) :
    (innerPass c l).2.length = l.length := by
  induction l generalizing c with
  | nil => rfl
  | cons y ys ih => simp only [innerPass]; split <;> simp [ih]

theorem innerPass_perm (c : SessionInfo) (l : List SessionInfo) :
    List.Perm ((innerPass c l).1 :: (innerPass c l).2) (c :: l) := by
  induction l generalizing c with
  | nil => exact List.Perm.refl _
  | cons y ys ih =>
    simp only [innerPass]
    split
    · exact (List.Perm.swap c _ _).trans ((ih y).cons c)
    · exact ((List.Perm.swap y _ _).trans ((ih c).cons y)).trans
        (List.Perm.swap _ _ _)

theorem innerPass_cur_le (c : SessionInfo) (l : List SessionInfo) :
    c.updated ≤ (innerPass c l).1.updated := by
  induction l generalizing c with
  | nil => exact le_refl _
  | cons y ys ih =>
    simp only [innerPass]
    split
    · exact le_trans (le_of_lt (by assumption)) (ih y)
    · exact ih c

theorem innerPass_max (c : SessionInfo) (l : List SessionInfo) :
    ∀ z ∈ (innerPass c l).2, z.updated ≤ (innerPass c l).1.updated := by
  induction l generalizing c with
  | nil => intro z hz; exact absurd hz (List.not_mem_nil z)
  | cons y ys ih =>
    simp only [innerPass]
    split
    · intro z hz
      rcases List.mem_cons.mp hz with h | h
      · subst h
        exact le_trans (le_of_lt (by assumption)) (innerPass_cur_le y ys)
      · exact ih y z h
    · intro z hz
      rcases List.mem_cons.mp hz with h | h
      · subst h
        exact le_trans (not_lt.mp (by assumption)) (innerPass_cur_le c ys)
      · exact ih c z h

theorem sortSessionsGo_perm (n : Nat) (l : List SessionInfo)
    (hl : l.length ≤ n) : List.Perm (sortSessionsGo n l) l := by
  induction n generalizing l with
  | zero =>
    have : l = [] := List.length_eq_zero.mp (Nat.le_zero.mp hl)
    subst this
    exact List.Perm.refl _
  | succ n ih =>
    match l with
    | [] => exact List.Perm.refl _
    | x :: xs =>
      simp only [sortSessionsGo]
      have hlen : (innerPass x xs).2.length ≤ n := by
        rw [innerPass_length]
        simp only [List.length_cons] at hl
        omega
      exact ((ih _ hlen).cons _).trans (innerPass_perm x xs)

theorem sortSessions_perm (l : List SessionInfo) :
    List.Perm (sortSessions l) l :=
  sortSessionsGo_perm l.length l (le_refl _)

theorem sortSessionsGo_sorted (n : Nat) (l : List SessionInfo)
    (hl : l.length ≤ n) :
    (sortSessionsGo n l).Pairwise (fun a b => b.updated ≤ a.updated) := by
  induction n generalizing l with
  | zero =>
    have : l = [] := List.length_eq_zero.mp (Nat.le_zero.mp hl)
    subst this
    simp [sortSessionsGo]
  | succ n ih =>
    match l with
    | [] => simp [sortSessionsGo]
    | x :: xs =>
      simp only [sortSessionsGo]
      have hlen : (innerPass x xs).2.length ≤ n := by
        rw [innerPass_length]
        simp only [List.length_cons] at hl
        omega
      refine List.pairwise_cons.mpr ⟨?_, ih _ hlen⟩
      intro z hz
      exact innerPass_max x xs z ((sortSessionsGo_perm n _ hlen).subset hz)

theorem sortSessions_sorted (l : List SessionInfo) :
    (sortSessions l).Pairwise (fun a b => b.updated ≤ a.updated) :=
  sortSessionsGo_sorted l.length l (le_refl _)

end Helpers

/-! ## Claims -/

section Claims

open Monitor UI Fixtures

/-- Claim C1, as stated, is false of the code: pressing `u` in the session
detail view of `statsTwo` (2 messages, selection on index 1) filters down to
1 user prompt but leaves the selection index at 1, outside `[0, 0]` — no
clamping happens on a filter change. -/
theorem claim_c1_counterexample : ¬ selectionClamped (handleKeyU mDetail) := by
  decide

/-- Claim C1 (amended): after every filter change (`u`/`a`/`b`) and every
sort-order toggle (`s`) in the SessionDetail view, the message selection
index is left exactly as it was — it is never clamped to the new filtered
count, and may therefore point past the end of the current list (use sites
guard it with explicit bounds checks instead). -/
theorem claim_c1_amended (m : UIModel) :
    (handleKeyU m).selectedMessageIdx = m.selectedMessageIdx ∧
    (handleKeyA m).selectedMessageIdx = m.selectedMessageIdx ∧
    (handleKeyB m).selectedMessageIdx = m.selectedMessageIdx ∧
    (handleKeyS m).selectedMessageIdx = m.selectedMessageIdx :=
  ⟨handleKeyU_selectedMessageIdx m, handleKeyA_selectedMessageIdx m,
   handleKeyB_selectedMessageIdx m, handleKeyS_selectedMessageIdx m⟩

/-- Claim C2: the claim (and the spec) say a block sequence with more than
one `text` block keeps only the FIRST text block's text. The code keeps the
LAST: evaluating `ParseSessionFile` on an assistant entry whose content is
`[text "first text", text "second text"]` yields a message whose content is
"second text" — each text block overwrites `contentStr`, because the `break`
in the Go `case "text"` arm only exits the `switch`, not the loop. -/
theorem claim_c2_code_keeps_last_text :
    (parseSessionFile (.lines
        [some (assistantEntry 100 [textItem "first text", textItem "second text"])]
        false)).map (fun s => s.messageHistory.map Message.content)
      = .ok ["second text"] ∧
    "second text" ≠ "first text" :=
  ⟨rfl, by decide⟩

/-- Claim C3: `calculateMessageCost` computes
`cost = in·3/1M + cacheWrite·3/1M + cacheRead·0.30/1M + out·15/1M` and
`cacheSavings = cacheRead·(3-0.30)/1M` for `assistant_response` messages
(with non-negative cache reads), returns `(0, 0)` for every other message
kind, has `cacheSavings = 0` whenever `cacheRead = 0`, and the cost formula
is additive, homogeneous and non-negative over non-negative token
quadruples. -/
theorem claim_c3_cost_model :
    (∀ msg : Message, msg.type_ = "assistant_response" → 0 ≤ msg.cacheRead →
      calculateMessageCost msg =
        ((msg.inputTokens : ℚ) * (3 / 1000000) +
          (msg.cacheCreation : ℚ) * (3 / 1000000) +
          (msg.cacheRead : ℚ) * (3 / 10000000) +
          (msg.outputTokens : ℚ) * (15 / 1000000),
         (msg.cacheRead : ℚ) * (27 / 10000000))) ∧
    (∀ msg : Message, msg.type_ ≠ "assistant_response" →
      calculateMessageCost msg = (0, 0)) ∧
    (∀ msg : Message, msg.cacheRead = 0 → (calculateMessageCost msg).2 = 0) ∧
    (∀ i cw cr o i2 cw2 cr2 o2 : Int,
      messageCostOf (i + i2) (cw + cw2) (cr + cr2) (o + o2) =
        messageCostOf i cw cr o + messageCostOf i2 cw2 cr2 o2) ∧
    (∀ k i cw cr o : Int,
      messageCostOf (k * i) (k * cw) (k * cr) (k * o) =
        (k : ℚ) * messageCostOf i cw cr o) ∧
    (∀ i cw cr o : Int, 0 ≤ i → 0 ≤ cw → 0 ≤ cr → 0 ≤ o →
      0 ≤ messageCostOf i cw cr o) := by
  refine ⟨?_, ?_, ?_, ?_, ?_, ?_⟩
  · intro msg ht hcr
    unfold calculateMessageCost
    rw [if_neg (by simp [ht])]
    dsimp only
    rw [Prod.mk.injEq]
    refine ⟨?_, ?_⟩
    · norm_num [InputTokenCost, CacheCreationTokenCost, CacheReadTokenCost,
        OutputTokenCost]
    · rcases eq_or_lt_of_le hcr with h | h
      · rw [if_neg (by omega)]
        simp [← h]
      · rw [if_pos h]
        norm_num [InputTokenCost, CacheReadTokenCost]
        ring
  · intro msg ht
    simp [calculateMessageCost, ht]
  · intro msg hcr
    unfold calculateMessageCost
    split
    · rfl
    · dsimp only
      rw [if_neg (by omega)]
  · intro i cw cr o i2 cw2 cr2 o2
    unfold messageCostOf
    push_cast
    ring
  · intro k i cw cr o
    unfold messageCostOf
    push_cast
    ring
  · intro i cw cr o hi hcw hcr ho
    have h1 : (0 : ℚ) ≤ (i : ℚ) := by exact_mod_cast hi
    have h2 : (0 : ℚ) ≤ (cw : ℚ) := by exact_mod_cast hcw
    have h3 : (0 : ℚ) ≤ (cr : ℚ) := by exact_mod_cast hcr
    have h4 : (0 : ℚ) ≤ (o : ℚ) := by exact_mod_cast ho
    unfold messageCostOf
    refine add_nonneg (add_nonneg (add_nonneg ?_ ?_) ?_) ?_
    · exact mul_nonneg h1 (by norm_num [InputTokenCost])
    · exact mul_nonneg h2 (by norm_num [CacheCreationTokenCost])
    · exact mul_nonneg h3 (by norm_num [CacheReadTokenCost])
    · exact mul_nonneg h4 (by norm_num [OutputTokenCost])

/-- Claim C3 witness: the spec's own scenario — an assistant response with
10 input and 5 output tokens costs `10·3/1M + 5·15/1M`. -/
theorem claim_c3_witness :
    calculateMessageCost asstMsg =
      ((asstMsg.inputTokens : ℚ) * (3 / 1000000) +
        (asstMsg.cacheCreation : ℚ) * (3 / 1000000) +
        (asstMsg.cacheRead : ℚ) * (3 / 10000000) +
        (asstMsg.outputTokens : ℚ) * (15 / 1000000),
       (asstMsg.cacheRead : ℚ) * (27 / 10000000)) :=
  claim_c3_cost_model.1 asstMsg rfl (by decide)

/-- Claim C4: in `GetSessionMetadata`, a gap of exactly 3600 seconds between
two consecutive user entries is NOT counted as an interruption, while a gap
of 3601 seconds IS — the threshold `ts.Sub(lastMessageTime) > time.Hour` is
strictly greater-than. (The first timestamp must not be Go's zero time,
which the code treats as "unset".) -/
theorem claim_c4_interruption_threshold (t : Int) (h : t ≠ 0) :
    (getSessionMetadata (.lines
        [some (userStamp t), some (userStamp (t + 3600 * 1000000000))]
        false)).map SessionMetadata.interruptions = .ok 0 ∧
    (getSessionMetadata (.lines
        [some (userStamp t), some (userStamp (t + 3601 * 1000000000))]
        false)).map SessionMetadata.interruptions = .ok 1 := by
  constructor <;>
  · simp only [getSessionMetadata, List.foldl, metaStep, userStamp,
      interruptionGap]
    norm_num
    simp [h, Except.map]

/-- Claim C4 witness: the threshold behaviour at the concrete start time
1000 ns. -/
theorem claim_c4_witness :
    (getSessionMetadata (.lines
        [some (userStamp 1000), some (userStamp (1000 + 3600 * 1000000000))]
        false)).map SessionMetadata.interruptions = .ok 0 ∧
    (getSessionMetadata (.lines
        [some (userStamp 1000), some (userStamp (1000 + 3601 * 1000000000))]
        false)).map SessionMetadata.interruptions = .ok 1 :=
  claim_c4_interruption_threshold 1000 (by decide)

/-- Claim C5, as stated, is false of the code: selecting a session from a
state in which newest-first sorting was left on resets the filter and
selection but leaves `messageSortNewestFirst = true` — the sort order is
not reset to oldest-first by the SessionList → SessionDetail transition. -/
theorem claim_c5_counterexample :
    ¬ ((selectSession fsA mSessions).messageFilter = .all ∧
       (selectSession fsA mSessions).messageSortNewestFirst = false ∧
       (selectSession fsA mSessions).selectedMessageIdx = 0) := by
  decide

/-- Claim C5 (amended): selecting a session runs `ParseSessionFile` on that
session's file and, once the load completes, installs its stats, resets the
message filter to All and the selection index to 0 — but the sort order is
left exactly as it was, not reset to OldestFirst. -/
theorem claim_c5_amended (fs : String → FileRead) (m : UIModel)
    (i : Nat) (info : SessionInfo) (stats : SessionStats)
    (hview : m.viewMode = .sessions)
    (hidx : m.selectedSessionIdx = (i : Int))
    (hinfo : m.sessions[i]? = some info)
    (hparse : parseSessionFile (fs info.path) = .ok stats) :
    (selectSession fs m).viewMode = .sessionDetail ∧
    (selectSession fs m).messageFilter = .all ∧
    (selectSession fs m).selectedMessageIdx = 0 ∧
    (selectSession fs m).messageSortNewestFirst = m.messageSortNewestFirst ∧
    (selectSession fs m).sessionStats = some stats := by
  have hlt : i < m.sessions.length := by
    have := List.getElem?_eq_some.mp hinfo
    exact this.1
  have hguard : m.viewMode = .sessions ∧ 0 < m.sessions.length ∧
      0 ≤ m.selectedSessionIdx ∧
      m.selectedSessionIdx < (m.sessions.length : Int) := by
    refine ⟨hview, by omega, ?_, ?_⟩
    · rw [hidx]; exact Int.ofNat_nonneg i
    · rw [hidx]; exact_mod_cast hlt
  have hcmd : loadSessionDetailCmd
      { m with viewMode := .sessionDetail, messageFilter := .all } =
      some info.path := by
    unfold loadSessionDetailCmd
    rw [if_neg]
    · simp only [hidx]
      simp [hinfo]
    · simp only [hidx]
      push_neg
      constructor
      · exact Int.ofNat_nonneg i
      · exact_mod_cast hlt
  unfold selectSession handleEnterSessions
  rw [if_pos hguard]
  simp only [hcmd]
  unfold handleSessionDetailMsg
  rw [hparse]
  refine ⟨?_, ?_, ?_, ?_, ?_⟩
  · rw [updateMessageTable_viewMode]
  · rw [updateMessageTable_messageFilter]
  · rw [updateMessageTable_selectedMessageIdx]
  · rw [updateMessageTable_sort]
  · rw [updateMessageTable_sessionStats]

/-- Claim C5 witness: the transition applied to the concrete session list
`mSessions` over the one-file file system `fsA`. -/
theorem claim_c5_witness :
    (selectSession fsA mSessions).viewMode = .sessionDetail ∧
    (selectSession fsA mSessions).messageFilter = .all ∧
    (selectSession fsA mSessions).selectedMessageIdx = 0 ∧
    (selectSession fsA mSessions).messageSortNewestFirst =
      mSessions.messageSortNewestFirst ∧
    (selectSession fsA mSessions).sessionStats = some statsPA :=
  claim_c5_amended fsA mSessions 0 sessA statsPA rfl rfl rfl rfl

/-- Claim C6, as stated, is false of the code: for 1 input and 2 output
tokens `calculateRatio` returns an output percentage of 66 (Go integer
division truncates), while the claimed `round(100·2/3)` is 67. -/
theorem claim_c6_counterexample :
    (calculateRatio 1 2).2 = 66 ∧
    round ((100 * (2 : ℚ)) / ((1 : ℚ) + 2)) = 67 := by
  constructor
  · rfl
  · norm_num [round_eq]

/-- Claim C6 (amended): for non-negative token counts, `calculateRatio`
returns `ratio = input/output` (the input value itself when output is 0,
hence 0 when both are 0) and `outputPercent = ⌊100·output/(input+output)⌋`
— the floor given by Go's truncating integer division, not the nearest
integer — with both 0 when `input + output = 0`. -/
theorem claim_c6_amended (i o : Int) (hi : 0 ≤ i) (ho : 0 ≤ o) :
    (calculateRatio i o).1 = (if o = 0 then (i : ℚ) else (i : ℚ) / (o : ℚ)) ∧
    (calculateRatio i o).2 =
      (if i + o = 0 then 0 else ⌊(100 * (o : ℚ)) / ((i : ℚ) + (o : ℚ))⌋) := by
  unfold calculateRatio
  by_cases h0 : i + o = 0
  · have hi0 : i = 0 := by omega
    have ho0 : o = 0 := by omega
    simp [h0, hi0, ho0]
  · rw [if_neg h0, if_neg h0]
    by_cases ho0 : o = 0
    · rw [if_pos ho0]
      constructor
      · simp [ho0]
      · rw [ho0]
        norm_num
    · rw [if_neg ho0, if_neg ho0]
      by_cases hi0 : i = 0
      · rw [if_pos hi0, hi0]
        constructor
        · simp
        · push_cast
          rw [zero_add, mul_div_assoc, div_self (by exact_mod_cast ho0), mul_one]
          norm_num
      · rw [if_neg hi0]
        refine ⟨rfl, ?_⟩
        have hnum : (0 : ℤ) ≤ o * 100 := by omega
        have hden : (0 : ℤ) ≤ i + o := by omega
        have hd : (((i + o).toNat : ℤ)) = i + o := Int.toNat_of_nonneg hden
        calc Int.tdiv (o * 100) (i + o)
            = (o * 100) / (i + o) := Int.tdiv_eq_ediv hnum hden
          _ = (o * 100) / (((i + o).toNat : ℤ)) := by rw [hd]
          _ = ⌊((o * 100 : ℤ) : ℚ) / (((i + o).toNat : ℕ) : ℚ)⌋ :=
              (Rat.floor_intCast_div_natCast _ _).symm
          _ = ⌊(100 * (o : ℚ)) / ((i : ℚ) + (o : ℚ))⌋ := by
              congr 1
              have hcast : (((i + o).toNat : ℕ) : ℚ) = ((i : ℚ) + (o : ℚ)) := by
                exact_mod_cast congrArg (fun z : ℤ => (z : ℚ)) hd
              rw [hcast]
              push_cast
              ring

/-- Claim C6 witness: the amended helper contract at 1 input and 2 output
tokens. -/
theorem claim_c6_witness :
    (calculateRatio 1 2).1 =
      (if (2 : Int) = 0 then ((1 : Int) : ℚ) else ((1 : Int) : ℚ) / ((2 : Int) : ℚ)) ∧
    (calculateRatio 1 2).2 =
      (if (1 : Int) + 2 = 0 then 0
       else ⌊(100 * ((2 : Int) : ℚ)) / (((1 : Int) : ℚ) + ((2 : Int) : ℚ))⌋) :=
  claim_c6_amended 1 2 (by decide) (by decide)

/-- Claim C7, as stated, is false of the code: the exchange sort of
`loadSessionsFromProject` is not stable. With `sessA`, `sessB` tied on the
minute-truncated mtime and `sessC` newer, the sort yields
`[sessC, sessB, sessA]`, reversing the encounter order of the tied pair
(a stable descending sort would give `[sessC, sessA, sessB]`). -/
theorem claim_c7_counterexample :
    sortSessions [sessA, sessB, sessC] = [sessC, sessB, sessA] ∧
    sessA.updated = sessB.updated ∧
    sortSessions [sessA, sessB, sessC] ≠ [sessC, sessA, sessB] := by
  refine ⟨rfl, rfl, ?_⟩
  decide

/-- Claim C7 (amended): listing sessions under a project sorts them by
last-modified timestamp (minute-truncated) descending — every element is a
permutation of the input and each adjacent pair is non-increasing — but
sessions whose timestamps tie may NOT keep their encounter order (the
double-loop swap sort is unstable). -/
theorem claim_c7_amended (l : List SessionInfo) :
    (sortSessions l).Pairwise (fun a b => b.updated ≤ a.updated) ∧
    List.Perm (sortSessions l) l :=
  ⟨sortSessions_sorted l, sortSessions_perm l⟩

/-- Claim C8: for every session file that aggregates successfully, the
resulting duration is non-negative (even for inconsistent timestamps) and
the message history is no longer than the number of user-type plus
assistant-type entries in the file. -/
theorem claim_c8_duration_and_bound (ls : List (Option SessionEntry)) (e : Bool)
    (stats : SessionStats)
    (h : parseSessionFile (.lines ls e) = .ok stats) :
    0 ≤ stats.duration ∧
    stats.messageHistory.length ≤
      countType ls "user" + countType ls "assistant" := by
  cases e with
  | true => simp [parseSessionFile] at h
  | false =>
    simp only [parseSessionFile, Bool.false_eq_true, if_false,
      Except.ok.injEq] at h
    subst h
    constructor
    · have hinv := foldl_processEntry_inv ls {} (le_refl 0) (le_refl 0)
      have hdur := foldl_processEntry_duration ls {}
      exact finishStats_duration_nonneg _ hinv.1 hdur
    · rw [finishStats_messageHistory]
      simpa using foldl_processEntry_len ls {}

/-- Claim C8 witness: the two-line file `lsW` aggregates to a non-negative
duration and at most 2 messages. -/
theorem claim_c8_witness :
    0 ≤ statsW.duration ∧
    statsW.messageHistory.length ≤
      countType lsW "user" + countType lsW "assistant" :=
  claim_c8_duration_and_bound lsW false statsW rfl

/-- Claim C9: `ParseSessionFile` returns an error exactly when the file
cannot be opened or read — every scanned file without a read error
aggregates successfully, open and read failures produce errors — and an
undecodable line is skipped without any trace: inserting one anywhere in a
file leaves the aggregation result unchanged. -/
theorem claim_c9_error_semantics :
    (∀ ls, ∃ s, parseSessionFile (.lines ls false) = .ok s) ∧
    parseSessionFile .openErr = .error "failed to open session file" ∧
    (∀ ls, parseSessionFile (.lines ls true) =
      .error "error reading session file") ∧
    (∀ l1 l2 e, parseSessionFile (.lines (l1 ++ none :: l2) e) =
      parseSessionFile (.lines (l1 ++ l2) e)) := by
  refine ⟨fun ls => ⟨_, rfl⟩, rfl, fun ls => rfl, fun l1 l2 e => ?_⟩
  simp [parseSessionFile, List.foldl_append, processEntry]

/-- Claim C10 (implicit): every message in an aggregated session's history
has non-empty content — strictly stronger than the spec's "content or tool
name" invariant — and a `tool_use` block with no preceding text produces
the synthetic placeholder content `Called tool: <name>`. -/
theorem claim_c10_nonempty_content (input : FileRead) (stats : SessionStats)
    (h : parseSessionFile input = .ok stats) :
    (∀ m ∈ stats.messageHistory, m.content ≠ "") ∧
    (∀ n : String, (parseSessionFile (.lines
        [some (assistantEntry 100 [toolUseItem n "input"])] false)).map
          (fun s => s.messageHistory.map Message.content) =
        .ok ["Called tool: " ++ n]) := by
  constructor
  · cases input with
    | openErr => simp [parseSessionFile] at h
    | lines ls e =>
      cases e with
      | true => simp [parseSessionFile] at h
      | false =>
        simp only [parseSessionFile, Bool.false_eq_true, if_false,
          Except.ok.injEq] at h
        subst h
        rw [finishStats_messageHistory]
        exact foldl_processEntry_content ls {}
          (by intro m hm; exact absurd hm (List.not_mem_nil m))
  · intro n
    have h13 : ("Called tool: " : String).length = 13 := rfl
    have hne : ¬ ("Called tool: " ++ n) = "" := by
      intro hcon
      have hlen := congrArg String.length hcon
      rw [String.length_append] at hlen
      rw [h13] at hlen
      simp at hlen
    simp [parseSessionFile, processEntry, captureVersion, updateTimes,
      dispatchEntry, processMessageEntry, extractContent, assistantItemStep,
      assistantEntry, toolUseItem, finishStats, TSParse.value, hne,
      Except.map]

/-- Claim C10 witness: the two-line file `lsW` aggregates to messages whose
contents are all non-empty. -/
theorem claim_c10_witness :
    statsW.messageHistory.map Message.content = ["hello", "hi"] ∧
    (∀ m ∈ statsW.messageHistory, m.content ≠ "") :=
  ⟨rfl, (claim_c10_nonempty_content (.lines lsW false) statsW rfl).1⟩

end Claims
